import Mathlib

/-!
Verification of the XML-import utility `scripts/subir_tabla.py` (repository
Sysacad).  The Python source is shallowly embedded below: pure helpers
(`get_text`, `definir_tipo_de_valor`) become Lean functions, and the
per-record import loop of `importar_datos` becomes explicit state passing
over a store modelled as an association list keyed by primary-key value.
The database session is external to the script; the only integrity
constraint visible in the script itself is primary-key uniqueness, which
the loop enforces by an explicit lookup before every insert, so in this
single-threaded model a commit after a negative duplicate check always
succeeds (matching section 5 of the module's design: the session is used
exclusively by this one flow).
-/

/-! ### Python string primitives used by the script -/

/-- Python whitespace characters relevant to `str.strip()` (ASCII range). -/
def isPySpace (c : Char) : Bool :=
  c = ' ' || c = '\t' || c = '\n' || c = '\r' || c.toNat = 11 || c.toNat = 12

/-- Python `str.strip()`: drop leading and trailing whitespace. -/
def pyStrip (s : String) : String :=
  String.mk (((s.toList.dropWhile isPySpace).reverse.dropWhile isPySpace).reverse)

/-- Python `str.lower()` restricted to the character ranges the script can
meet in its truthy-token comparison: ASCII `A`–`Z` and the Latin-1 uppercase
block `À`–`Þ` (excluding `×`), each lowered by adding 32 — exactly what
CPython does on those code points.  Other characters are left unchanged. -/
def pyLowerChar (c : Char) : Char :=
  let n := c.toNat
  if 65 ≤ n ∧ n ≤ 90 then Char.ofNat (n + 32)
  else if 192 ≤ n ∧ n ≤ 222 ∧ n ≠ 215 then Char.ofNat (n + 32)
  else c

/-- Python `str.lower()` on a whole string (see `pyLowerChar`). -/
def pyLower (s : String) : String :=
  String.mk (s.toList.map pyLowerChar)

/-- One digit group of a Python numeric literal: after an initial digit has
been consumed, keep consuming digits, allowing a single `_` strictly between
two digits (Python 3.6 underscore grouping).  Returns the accumulated value,
the number of digits consumed, and the unconsumed remainder. -/
def digitRunAux (v k : Nat) : List Char → Nat × Nat × List Char
  | '_' :: c :: rest =>
    if c.isDigit then digitRunAux (v * 10 + (c.toNat - 48)) (k + 1) rest
    else (v, k, '_' :: c :: rest)
  | c :: rest =>
    if c.isDigit then digitRunAux (v * 10 + (c.toNat - 48)) (k + 1) rest
    else (v, k, c :: rest)
  | [] => (v, k, [])

/-- A non-empty digit run: first character must be a digit. -/
def digitRun : List Char → Option (Nat × Nat × List Char)
  | c :: rest =>
    if c.isDigit then some (digitRunAux (c.toNat - 48) 1 rest) else none
  | [] => none

/-- Python `int(s)` for decimal text: surrounding whitespace stripped,
optional sign, then one digit run consuming the whole remainder.
`none` models the `ValueError` CPython raises on any other input. -/
def pyInt (s : String) : Option Int :=
  let l := (pyStrip s).toList
  let (sgn, l') : Int × List Char :=
    match l with
    | '+' :: r => (1, r)
    | '-' :: r => (-1, r)
    | _ => (1, l)
  match digitRun l' with
  | some (v, _, []) => some (sgn * (v : Int))
  | _ => none

/-- Exponent suffix of a Python float literal: `e`/`E`, optional sign, digit
run consuming the rest.  An empty remainder means "no exponent". -/
def pyFloatExp : List Char → Option Int
  | [] => some 0
  | c :: rest =>
    if c = 'e' ∨ c = 'E' then
      let (sgn, r) : Int × List Char :=
        match rest with
        | '+' :: r2 => (1, r2)
        | '-' :: r2 => (-1, r2)
        | _ => (1, rest)
      match digitRun r with
      | some (v, _, []) => some (sgn * (v : Int))
      | _ => none
    else none

/-- Python `float(s)` for finite decimal literals: optional sign, integer
and/or fractional digit runs, optional exponent.  The value is modelled as
an exact rational; IEEE rounding and the special tokens `inf`/`nan` are
outside the model (no claim depends on them), and any unparsable input is
`none`, modelling `ValueError`. -/
def pyFloat (s : String) : Option Rat :=
  let l := (pyStrip s).toList
  let (sgn, l') : Rat × List Char :=
    match l with
    | '+' :: r => (1, r)
    | '-' :: r => (-1, r)
    | _ => (1, l)
  let mant : Option (Rat × List Char) :=
    match digitRun l' with
    | some (ip, _, rest) =>
      match rest with
      | '.' :: r2 =>
        match digitRun r2 with
        | some (fp, k, r3) => some ((ip : Rat) + (fp : Rat) / ((10 : Rat) ^ k), r3)
        | none => some ((ip : Rat), r2)
      | _ => some ((ip : Rat), rest)
    | none =>
      match l' with
      | '.' :: r2 =>
        match digitRun r2 with
        | some (fp, k, r3) => some ((fp : Rat) / ((10 : Rat) ^ k), r3)
        | none => none
      | _ => none
  match mant with
  | some (m, rest) =>
    match pyFloatExp rest with
    | some e =>
      some (sgn * m * (if 0 ≤ e then (10 : Rat) ^ e.toNat else 1 / (10 : Rat) ^ (-e).toNat))
    | none => none
  | none => none

/-! ### Data model -/

/-- SQLAlchemy column types the script dispatches on (`String`, `Text`,
`Integer`, `BigInteger`, `Float`, `Boolean`), plus a constructor for any
other type, which falls through to the string fallback. -/
inductive ColType where
  | str
  | text
  | integer
  | bigint
  | float
  | boolean
  | other
  deriving DecidableEq

/-- A coerced cell value.  `none` is Python `None`; floats carry the exact
rational produced by `pyFloat`. -/
inductive Value where
  | none
  | str (s : String)
  | int (n : Int)
  | float (q : Rat)
  | bool (b : Bool)
  deriving DecidableEq

/-- The exception classes the record loop distinguishes:
`ValueError`, `IntegrityError`, and any other `Exception`. -/
inductive ErrKind where
  | value
  | integrity
  | other
  deriving DecidableEq

/-- An XML sub-element as the script sees it: only its `.text`
(`none` models a Python `None` text). -/
structure Elem where
  text : Option String
  deriving DecidableEq

/-- One record element: its sub-elements in document order,
as (tag, element) pairs; `find` takes the first match. -/
def Item : Type := List (String × Elem)

/-- `item.find(tag)`: first sub-element with the given tag, if any. -/
def findTag (item : Item) (tag : String) : Option Elem :=
  (item.find? (fun p => p.1 = tag)).map Prod.snd

/-! ### `get_text` and `definir_tipo_de_valor` -/

/-- `get_text(elem)`: `elem.text.strip() if (elem is not None and elem.text)
else None`.  The condition is Python truthiness, so it requires the element
to exist and its text to be a non-empty string. -/
def get_text (elem : Option Elem) : Option String :=
  match elem with
  | some el =>
    match el.text with
    | some t => if t = "" then none else some (pyStrip t)
    | none => none
  | none => none

/-- The truthy tokens of the boolean branch, exactly as listed in the
source: `("1", "true", "t", "yes", "y", "si", "sí")`. -/
def truthyTokens : List String := ["1", "true", "t", "yes", "y", "si", "sí"]

/-- `definir_tipo_de_valor(value, col_type)`: `None` passes through;
`String`/`Text` return the text unchanged; `Integer`/`BigInteger` parse with
`int`, `Float` with `float` (a parse failure is a `ValueError`); `Boolean`
lowercases and tests membership in `truthyTokens`; anything else falls back
to the raw string. -/
def definir_tipo_de_valor (value : Option String) (colType : ColType) :
    Except ErrKind Value :=
  match value with
  | Option.none => Except.ok Value.none
  | some v =>
    match colType with
    | ColType.str => Except.ok (Value.str v)
    | ColType.text => Except.ok (Value.str v)
    | ColType.integer =>
      match pyInt v with
      | some n => Except.ok (Value.int n)
      | Option.none => Except.error ErrKind.value
    | ColType.bigint =>
      match pyInt v with
      | some n => Except.ok (Value.int n)
      | Option.none => Except.error ErrKind.value
    | ColType.float =>
      match pyFloat v with
      | some q => Except.ok (Value.float q)
      | Option.none => Except.error ErrKind.value
    | ColType.boolean => Except.ok (Value.bool (truthyTokens.contains (pyLower v)))
    | ColType.other => Except.ok (Value.str v)

/-! ### Import configuration and the record loop of `importar_datos` -/

/-- A row as built by the loop: the `data` dict, (column, value) pairs in
column order.  Column names reflected from a table are unique, so lookup by
first match agrees with Python's dict. -/
def Row : Type := List (String × Value)

instance : DecidableEq Row := by
  unfold Row
  infer_instance

/-- The table contents, keyed by primary-key value.  `db.session.get(model,
pk)` is lookup by key; a committed insert adds a row under its key. -/
def Store : Type := List (Value × Row)

instance : DecidableEq Store := by
  unfold Store
  infer_instance

/-- The inputs of `importar_datos` that shape record processing: the
reflected column dict (`_model_columns`), the primary-key column name, the
optional `field_map`, the optional `pk_from` redirect and the optional
per-column custom transforms (arbitrary functions, whose raised exceptions
the loop classifies by kind). -/
structure ImportCfg where
  cols : List (String × ColType)
  pkName : String
  fieldMap : List (String × String)
  pkFrom : Option String
  transforms : List (String × (Option String → Except ErrKind Value))

/-- Source-tag resolution for one column: `xml_tag =
field_map.get(col_name, col_name)`, then `if col_name == pk_name and
pk_from: xml_tag = pk_from` — the `pk_from` redirect is applied after, and
therefore overrides, the field-map entry; `and pk_from` is Python
truthiness, so an empty-string redirect is ignored. -/
def resolveTag (fieldMap : List (String × String)) (pkName : String)
    (pkFrom : Option String) (colName : String) : String :=
  let t := (fieldMap.lookup colName).getD colName
  match pkFrom with
  | some p => if colName = pkName ∧ p ≠ "" then p else t
  | none => t

/-- Per-column value production: resolve the tag, `find` the sub-element,
`get_text`, then either the registered transform or default coercion. -/
def buildField (cfg : ImportCfg) (item : Item) (colName : String)
    (colType : ColType) : Except ErrKind Value :=
  let tag := resolveTag cfg.fieldMap cfg.pkName cfg.pkFrom colName
  let raw := get_text (findTag item tag)
  match cfg.transforms.lookup colName with
  | some f => f raw
  | none => definir_tipo_de_valor raw colType

/-- The `data` dict built column by column; the first raising column aborts
the record with its exception, exactly as the Python loop does. -/
def buildData (cfg : ImportCfg) (item : Item) :
    List (String × ColType) → Except ErrKind Row
  | [] => Except.ok []
  | (c, ty) :: rest =>
    match buildField cfg item c ty with
    | Except.error k => Except.error k
    | Except.ok v =>
      match buildData cfg item rest with
      | Except.error k => Except.error k
      | Except.ok d => Except.ok ((c, v) :: d)

/-- `db.session.get(model, pk)`: first row stored under that key. -/
def storeGet : Store → Value → Option Row
  | [], _ => Option.none
  | (k, r) :: rest, v => if k = v then some r else storeGet rest v

/-- The fate of one record element. -/
inductive Outcome where
  | inserted
  | duplicated
  | errored (k : ErrKind)
  deriving DecidableEq

/-- One iteration of the record loop: build `data`; raise `ValueError` when
`data.get(pk_name)` is `None` (key absent or value `None`); skip an
existing key as duplicate; otherwise add and commit.  Every exception path
ends in `db.session.rollback()`, so the store is returned unchanged there;
the dedup check makes the subsequent commit conflict-free in this
single-threaded model, so `IntegrityError` is never produced. -/
def processItem (cfg : ImportCfg) (s : Store) (item : Item) : Outcome × Store :=
  match buildData cfg item cfg.cols with
  | Except.error k => (Outcome.errored k, s)
  | Except.ok data =>
    let pkVal := (data.lookup cfg.pkName).getD Value.none
    if pkVal = Value.none then (Outcome.errored ErrKind.value, s)
    else
      match storeGet s pkVal with
      | some _ => (Outcome.duplicated, s)
      | Option.none => (Outcome.inserted, (pkVal, data) :: s)

/-- The three running totals printed at the end. -/
structure Counts where
  inserted : Nat
  duplicated : Nat
  errored : Nat
  deriving DecidableEq

/-- Add one record's outcome to the totals. -/
def Counts.bump (o : Outcome) (c : Counts) : Counts :=
  match o with
  | Outcome.inserted => { c with inserted := c.inserted + 1 }
  | Outcome.duplicated => { c with duplicated := c.duplicated + 1 }
  | Outcome.errored _ => { c with errored := c.errored + 1 }

/-- Componentwise sum of totals. -/
def Counts.add (a b : Counts) : Counts :=
  ⟨a.inserted + b.inserted, a.duplicated + b.duplicated, a.errored + b.errored⟩

/-- `for item in root.findall(item_tag)`: process the matching elements in
order, threading the store and accumulating the totals. -/
def runItems (cfg : ImportCfg) : List Item → Store → Counts × Store
  | [], s => (⟨0, 0, 0⟩, s)
  | it :: rest, s =>
    let r := processItem cfg s it
    let r2 := runItems cfg rest r.2
    (Counts.bump r.1 r2.1, r2.2)

/-- Result of a whole run: `summary` is the final totals line, present
exactly when the run reaches it (`none` on the early returns), and the
store after the run. -/
structure RunResult where
  summary : Option Counts
  store : Store
  deriving DecidableEq

/-- `importar_datos` at run level.  File existence and the XML parse are
external inputs: a missing file returns before any parsing, and a parse
error returns before any record processing; both early returns skip the
final summary print. -/
def importar_datos (fileExists : Bool) (parsed : Except Unit (List Item))
    (cfg : ImportCfg) (s : Store) : RunResult :=
  if fileExists then
    match parsed with
    | Except.error _ => ⟨Option.none, s⟩
    | Except.ok items =>
      let r := runItems cfg items s
      ⟨some r.1, r.2⟩
  else ⟨Option.none, s⟩

/-! ### Concrete exemplar configuration and records (for witnesses) -/

/-- A two-column table (`id : Integer`, `nombre : String`), primary key
`id`, no field map, no redirect, no transforms. -/
def cfgEx : ImportCfg :=
  ⟨[("id", ColType.integer), ("nombre", ColType.str)], "id", [], Option.none, []⟩

/-- A well-formed record with key 1. -/
def itemEx1 : Item := [("id", ⟨some "1"⟩), ("nombre", ⟨some "ana"⟩)]

/-- A second well-formed record, key 1 again but a different name. -/
def itemEx1b : Item := [("id", ⟨some "1"⟩), ("nombre", ⟨some "bob"⟩)]

/-- A well-formed record with key 2. -/
def itemEx2 : Item := [("id", ⟨some "2"⟩), ("nombre", ⟨some "eva"⟩)]

/-- A record with no `id` sub-element at all. -/
def itemNoPk : Item := [("nombre", ⟨some "solo"⟩)]

/-- A record whose `id` text is not an integer. -/
def itemBadInt : Item := [("id", ⟨some "zz"⟩), ("nombre", ⟨some "mal"⟩)]

/-- A store already holding key 1. -/
def storeEx : Store := [(Value.int 1, [("id", Value.int 1), ("nombre", Value.str "x")])]

/-! ### Derived views of one record (store-independent part of the loop) -/

/-- The primary-key value a record resolves to, when its `data` dict builds
without an exception and `data.get(pk_name)` is not `None`. -/
def pkOf (cfg : ImportCfg) (item : Item) : Option Value :=
  match buildData cfg item cfg.cols with
  | Except.error _ => Option.none
  | Except.ok d =>
    let v := (d.lookup cfg.pkName).getD Value.none
    if v = Value.none then Option.none else some v

/-- The `data` dict of a record whose build succeeds (junk otherwise). -/
def dataOf (cfg : ImportCfg) (item : Item) : Row :=
  match buildData cfg item cfg.cols with
  | Except.ok d => d
  | Except.error _ => []

/-- A record whose `data` dict builds fine but whose resolved primary-key
value is `None` (sub-element absent, text empty, or key not a column). -/
def pkIsNull (cfg : ImportCfg) (item : Item) : Bool :=
  match buildData cfg item cfg.cols with
  | Except.ok d => decide ((d.lookup cfg.pkName).getD Value.none = Value.none)
  | Except.error _ => false

/-! ### Claim theorems: type coercion and text extraction -/

/-- C3: boolean coercion of a non-null string never raises; it lowercases
the input and returns `true` exactly when the result is one of the seven
tokens `1, true, t, yes, y, si, sí`. -/
theorem boolean_coercion_truthy (v : String) :
    definir_tipo_de_valor (some v) ColType.boolean
      = Except.ok (Value.bool (truthyTokens.contains (pyLower v))) ∧
    (truthyTokens.contains (pyLower v) = true ↔
      pyLower v = "1" ∨ pyLower v = "true" ∨ pyLower v = "t" ∨ pyLower v = "yes" ∨
      pyLower v = "y" ∨ pyLower v = "si" ∨ pyLower v = "sí") := by
  refine ⟨rfl, ?_⟩
  simp [truthyTokens]

/-- Witness for C3 at the concrete input `"TRUE"`. -/
theorem boolean_coercion_truthy_witness :
    definir_tipo_de_valor (some "TRUE") ColType.boolean
      = Except.ok (Value.bool (truthyTokens.contains (pyLower "TRUE"))) :=
  (boolean_coercion_truthy "TRUE").1

/-- C4: full behaviour of `definir_tipo_de_valor` — `None` maps to `None`
for every target type, text targets return the string unchanged, integer
and float targets parse (a parse failure is a `ValueError` and nothing
else), and an unrecognized target returns the raw string. -/
theorem type_coercion_cases (v : String) (t : ColType) :
    definir_tipo_de_valor Option.none t = Except.ok Value.none ∧
    definir_tipo_de_valor (some v) ColType.str = Except.ok (Value.str v) ∧
    definir_tipo_de_valor (some v) ColType.text = Except.ok (Value.str v) ∧
    definir_tipo_de_valor (some v) ColType.integer =
      (match pyInt v with
       | some n => Except.ok (Value.int n)
       | Option.none => Except.error ErrKind.value) ∧
    definir_tipo_de_valor (some v) ColType.bigint =
      (match pyInt v with
       | some n => Except.ok (Value.int n)
       | Option.none => Except.error ErrKind.value) ∧
    definir_tipo_de_valor (some v) ColType.float =
      (match pyFloat v with
       | some q => Except.ok (Value.float q)
       | Option.none => Except.error ErrKind.value) ∧
    definir_tipo_de_valor (some v) ColType.other = Except.ok (Value.str v) :=
  ⟨rfl, rfl, rfl, rfl, rfl, rfl, rfl⟩

/-- C8 counterexample: a sub-element whose text is a single space does not
yield null — `get_text` returns the empty string (Python's truthiness test
`elem.text` passes on whitespace-only text, and `strip()` then empties it). -/
theorem get_text_whitespace_cx :
    get_text (some ⟨some " "⟩) = some "" ∧
    get_text (some ⟨some " "⟩) ≠ Option.none := by
  refine ⟨rfl, ?_⟩
  decide

/-- C8 (amended): `get_text` returns null when the sub-element is absent,
has no text, or has empty text; on non-empty text it returns the text with
surrounding whitespace stripped — so whitespace-only text yields the empty
string, not null. -/
theorem get_text_spec (t : String) :
    get_text Option.none = Option.none ∧
    get_text (some ⟨Option.none⟩) = Option.none ∧
    get_text (some ⟨some ""⟩) = Option.none ∧
    get_text (some ⟨some t⟩) = (if t = "" then Option.none else some (pyStrip t)) ∧
    (t ≠ "" → t.toList.all isPySpace = true → get_text (some ⟨some t⟩) = some "") := by
  refine ⟨rfl, rfl, rfl, rfl, ?_⟩
  intro ht hsp
  have hdrop : List.dropWhile isPySpace t.data = [] := by
    rw [List.dropWhile_eq_nil_iff]
    intro x hx
    exact List.all_eq_true.mp hsp x hx
  simp [get_text, ht, pyStrip, String.toList, hdrop]

/-- Witness for C8's amended theorem at the concrete input `" "`. -/
theorem get_text_spec_witness :
    get_text (some ⟨some " "⟩) = some "" :=
  (get_text_spec " ").2.2.2.2 (by decide) (by decide)

/-! ### Claim theorems: source-tag resolution -/

/-- C5 counterexample: with a field-map entry for the primary key and a
non-empty `pk_from` both present, the code resolves the tag to the
`pk_from` redirect, not to the field-map entry as the claim states. -/
theorem resolveTag_precedence_cx :
    resolveTag [("id", "codigo")] "id" (some "legajo") "id" = "legajo" ∧
    resolveTag [("id", "codigo")] "id" (some "legajo") "id" ≠ "codigo" := by
  refine ⟨rfl, ?_⟩
  decide

/-- C5 (amended): the precedence is primary-key redirect first — when the
field is the primary key and a non-empty redirect was given, the redirect
tag wins (overriding any field-map entry); otherwise the field-map entry if
registered, else the field's own name. -/
theorem resolveTag_precedence (fm : List (String × String)) (pk p col : String) :
    (p ≠ "" → col = pk → resolveTag fm pk (some p) col = p) ∧
    (col ≠ pk → resolveTag fm pk (some p) col = (fm.lookup col).getD col) ∧
    resolveTag fm pk Option.none col = (fm.lookup col).getD col := by
  refine ⟨?_, ?_, rfl⟩
  · intro hp hc
    simp [resolveTag, hc, hp]
  · intro hc
    simp [resolveTag, hc]

/-- Witness for C5's amended theorem: the redirect wins on the concrete
configuration of the counterexample. -/
theorem resolveTag_precedence_witness :
    resolveTag [("id", "codigo")] "id" (some "legajo") "id" = "legajo" :=
  (resolveTag_precedence [("id", "codigo")] "id" "legajo" "id").1 (by decide) rfl

/-! ### Claim theorems: missing source file -/

/-- C7 counterexample: a run whose source file is missing does not report a
zero summary — the function returns before the summary line, so no counts
are reported at all. -/
theorem missing_file_cx :
    (importar_datos false (Except.ok [itemEx1]) cfgEx []).summary = Option.none ∧
    (Option.none : Option Counts) ≠ some ⟨0, 0, 0⟩ := by
  refine ⟨rfl, ?_⟩
  decide

/-- C7 (amended): when the resolved source file does not exist the run
aborts immediately — no record is processed, the store is unchanged — and
no count summary is reported (the totals line is never reached). -/
theorem missing_file_aborts (parsed : Except Unit (List Item))
    (cfg : ImportCfg) (s : Store) :
    importar_datos false parsed cfg s = ⟨Option.none, s⟩ := by
  cases parsed <;> rfl

/-! ### Loop lemmas -/

/-- Unfolding: the empty run. -/
theorem runItems_nil (cfg : ImportCfg) (s : Store) :
    runItems cfg [] s = (⟨0, 0, 0⟩, s) := rfl

/-- Unfolding: one loop iteration. -/
theorem runItems_cons (cfg : ImportCfg) (it : Item) (rest : List Item) (s : Store) :
    runItems cfg (it :: rest) s =
      (Counts.bump (processItem cfg s it).1
        (runItems cfg rest (processItem cfg s it).2).1,
       (runItems cfg rest (processItem cfg s it).2).2) := rfl

/-- Totals starting from zero. -/
theorem Counts.zero_add (c : Counts) : Counts.add ⟨0, 0, 0⟩ c = c := by
  cases c
  simp [Counts.add]

/-- Bumping one outcome commutes with adding later totals. -/
theorem Counts.bump_add (o : Outcome) (a b : Counts) :
    Counts.add (Counts.bump o a) b = Counts.bump o (Counts.add a b) := by
  cases o <;> cases a <;> cases b <;> simp [Counts.add, Counts.bump] <;> omega

/-- Splitting a run at an append boundary. -/
theorem runItems_append (cfg : ImportCfg) (l₁ l₂ : List Item) (s : Store) :
    runItems cfg (l₁ ++ l₂) s =
      (Counts.add (runItems cfg l₁ s).1 (runItems cfg l₂ (runItems cfg l₁ s).2).1,
       (runItems cfg l₂ (runItems cfg l₁ s).2).2) := by
  induction l₁ generalizing s with
  | nil => simp [runItems_nil, Counts.zero_add]
  | cons it rest ih => simp only [List.cons_append, runItems_cons, ih, Counts.bump_add]

/-- A record with a null (or unbuildable) primary key errors on every
store, leaving the store untouched. -/
theorem processItem_of_pkOf_none (cfg : ImportCfg) (item : Item) (s : Store)
    (h : pkOf cfg item = Option.none) :
    (∃ k, (processItem cfg s item).1 = Outcome.errored k) ∧
    (processItem cfg s item).2 = s := by
  unfold pkOf at h
  cases hb : buildData cfg item cfg.cols with
  | error k =>
    refine ⟨⟨k, ?_⟩, ?_⟩ <;> simp [processItem, hb]
  | ok d =>
    rw [hb] at h
    by_cases hv : (d.lookup cfg.pkName).getD Value.none = Value.none
    · refine ⟨⟨ErrKind.value, ?_⟩, ?_⟩ <;> simp [processItem, hb, hv]
    · simp [hv] at h

/-- A record that builds and resolves a non-null primary key is a
duplicate exactly when the key is already stored, and otherwise inserts
its data under that key. -/
theorem processItem_of_pkOf_some (cfg : ImportCfg) (item : Item) (v : Value)
    (h : pkOf cfg item = some v) (s : Store) :
    processItem cfg s item =
      (match storeGet s v with
       | some _ => (Outcome.duplicated, s)
       | Option.none => (Outcome.inserted, (v, dataOf cfg item) :: s)) := by
  unfold pkOf at h
  cases hb : buildData cfg item cfg.cols with
  | error k => rw [hb] at h; exact absurd h (by simp)
  | ok d =>
    rw [hb] at h
    by_cases hv : (d.lookup cfg.pkName).getD Value.none = Value.none
    · simp [hv] at h
    · simp only [hv, if_false] at h
      rw [Option.some_inj] at h
      have hvn : ¬v = Value.none := by
        rw [← h]
        exact hv
      cases hg : storeGet s v <;>
        simp [processItem, dataOf, hb, hv, h, hvn, hg]

/-- A record whose `pkIsNull` holds raises the `ValueError` of the
primary-key validation and rolls back. -/
theorem processItem_of_pkIsNull (cfg : ImportCfg) (s : Store) (item : Item)
    (h : pkIsNull cfg item = true) :
    processItem cfg s item = (Outcome.errored ErrKind.value, s) := by
  unfold pkIsNull at h
  cases hb : buildData cfg item cfg.cols with
  | error k => rw [hb] at h; simp at h
  | ok d =>
    rw [hb] at h
    simp only [decide_eq_true_eq] at h
    simp [processItem, hb, h]

/-- Any errored outcome leaves the store exactly as it was (rollback). -/
theorem processItem_error_store (cfg : ImportCfg) (s : Store) (item : Item)
    (k : ErrKind) (h : (processItem cfg s item).1 = Outcome.errored k) :
    (processItem cfg s item).2 = s := by
  cases hb : buildData cfg item cfg.cols with
  | error k2 => simp [processItem, hb]
  | ok d =>
    by_cases hv : (d.lookup cfg.pkName).getD Value.none = Value.none
    · simp [processItem, hb, hv]
    · cases hg : storeGet s ((d.lookup cfg.pkName).getD Value.none) with
      | some r => simp [processItem, hb, hv, hg]
      | none => simp [processItem, hb, hv, hg] at h

/-- Rows already committed survive one loop iteration unchanged. -/
theorem storeGet_processItem (cfg : ImportCfg) (s : Store) (item : Item)
    (v : Value) (r : Row) (h : storeGet s v = some r) :
    storeGet (processItem cfg s item).2 v = some r := by
  cases hb : buildData cfg item cfg.cols with
  | error k => simp [processItem, hb, h]
  | ok d =>
    by_cases hv : (d.lookup cfg.pkName).getD Value.none = Value.none
    · simp [processItem, hb, hv, h]
    · cases hg : storeGet s ((d.lookup cfg.pkName).getD Value.none) with
      | some r2 => simp [processItem, hb, hv, hg, h]
      | none =>
        have hne : ((d.lookup cfg.pkName).getD Value.none) ≠ v := by
          intro he
          rw [he, h] at hg
          exact Option.noConfusion hg
        simp [processItem, hb, hv, hg, storeGet, hne, h]

/-- Rows already committed survive the rest of the run unchanged. -/
theorem storeGet_runItems (cfg : ImportCfg) (l : List Item) :
    ∀ (s : Store) (v : Value) (r : Row), storeGet s v = some r →
      storeGet (runItems cfg l s).2 v = some r := by
  induction l with
  | nil => intro s v r h; simpa [runItems_nil]
  | cons it rest ih =>
    intro s v r h
    rw [runItems_cons]
    exact ih _ _ _ (storeGet_processItem cfg s it v r h)

/-- Key membership in the store is preserved by the rest of the run. -/
theorem storeGet_isSome_runItems (cfg : ImportCfg) (l : List Item) (s : Store)
    (v : Value) (h : (storeGet s v).isSome = true) :
    (storeGet (runItems cfg l s).2 v).isSome = true := by
  obtain ⟨r, hr⟩ := Option.isSome_iff_exists.mp h
  rw [storeGet_runItems cfg l s v r hr]
  rfl

/-! ### Claim theorems: the record loop -/

/-- C2: a record whose `data` dict builds but whose resolved primary-key
value is `None` is never persisted: it raises the primary-key `ValueError`,
rolls back (store unchanged), adds exactly one to the error count, and the
remaining records are processed exactly as if it were absent. -/
theorem pk_null_record_errors (cfg : ImportCfg) (s : Store) (item : Item)
    (rest : List Item) (h : pkIsNull cfg item = true) :
    processItem cfg s item = (Outcome.errored ErrKind.value, s) ∧
    runItems cfg (item :: rest) s =
      (Counts.bump (Outcome.errored ErrKind.value) (runItems cfg rest s).1,
       (runItems cfg rest s).2) := by
  have hp := processItem_of_pkIsNull cfg s item h
  refine ⟨hp, ?_⟩
  rw [runItems_cons, hp]

/-- Witness for C2: a record with no `id` sub-element errors and carries
over the processing of the record after it. -/
theorem pk_null_record_errors_witness :
    processItem cfgEx [] itemNoPk = (Outcome.errored ErrKind.value, []) ∧
    runItems cfgEx (itemNoPk :: [itemEx1]) [] =
      (Counts.bump (Outcome.errored ErrKind.value) (runItems cfgEx [itemEx1] []).1,
       (runItems cfgEx [itemEx1] []).2) :=
  pk_null_record_errors cfgEx [] itemNoPk [itemEx1] (by decide)

/-- C6: per-record failures are isolated — whatever the error kind, the
failing record leaves the store exactly as the records before it left it,
contributes exactly one to the error count, and the records after it run
from that same store, unaffected. -/
theorem error_isolated (cfg : ImportCfg) (s : Store) (pre post : List Item)
    (item : Item) (k : ErrKind)
    (h : (processItem cfg (runItems cfg pre s).2 item).1 = Outcome.errored k) :
    (processItem cfg (runItems cfg pre s).2 item).2 = (runItems cfg pre s).2 ∧
    runItems cfg (pre ++ item :: post) s =
      (Counts.add (runItems cfg pre s).1
        (Counts.bump (Outcome.errored k)
          (runItems cfg post (runItems cfg pre s).2).1),
       (runItems cfg post (runItems cfg pre s).2).2) := by
  have hst := processItem_error_store cfg _ item k h
  refine ⟨hst, ?_⟩
  rw [runItems_append, runItems_cons, hst, h]

/-- Witness for C6: a malformed integer (`id` text `"zz"`) between two good
records errors alone; the earlier insert stays and the later record is
processed from the same store. -/
theorem error_isolated_witness :
    (processItem cfgEx (runItems cfgEx [itemEx1] []).2 itemBadInt).2 =
      (runItems cfgEx [itemEx1] []).2 ∧
    runItems cfgEx ([itemEx1] ++ itemBadInt :: [itemEx2]) [] =
      (Counts.add (runItems cfgEx [itemEx1] []).1
        (Counts.bump (Outcome.errored ErrKind.value)
          (runItems cfgEx [itemEx2] (runItems cfgEx [itemEx1] []).2).1),
       (runItems cfgEx [itemEx2] (runItems cfgEx [itemEx1] []).2).2) :=
  error_isolated cfgEx [] [itemEx1] [itemEx2] itemBadInt ErrKind.value (by decide)

/-- C9: every processed record bumps exactly one of the three counters, so
their sum equals the number of matching elements; and over any extension of
the run each counter only grows. -/
theorem counts_partition (cfg : ImportCfg) (items l₂ : List Item) (s : Store) :
    (runItems cfg items s).1.inserted + (runItems cfg items s).1.duplicated +
        (runItems cfg items s).1.errored = items.length ∧
    (runItems cfg items s).1.inserted ≤ (runItems cfg (items ++ l₂) s).1.inserted ∧
    (runItems cfg items s).1.duplicated ≤ (runItems cfg (items ++ l₂) s).1.duplicated ∧
    (runItems cfg items s).1.errored ≤ (runItems cfg (items ++ l₂) s).1.errored := by
  constructor
  · induction items generalizing s with
    | nil => simp [runItems_nil]
    | cons it rest ih =>
      rw [runItems_cons]
      have hih := ih ((processItem cfg s it).2)
      cases (processItem cfg s it).1 <;> simp [Counts.bump] <;> omega
  · rw [runItems_append]
    refine ⟨?_, ?_, ?_⟩ <;> simp [Counts.add]

/-- C10: within one file, if a record inserts under a non-null key, any
later record resolving to the same key is counted as a duplicate, not
persisted, and the stored row stays the one the first record committed. -/
theorem first_occurrence_wins (cfg : ImportCfg) (s : Store) (a b : Item)
    (mid : List Item) (v : Value)
    (ha : pkOf cfg a = some v) (hb : pkOf cfg b = some v)
    (hs : storeGet s v = Option.none) :
    processItem cfg s a = (Outcome.inserted, (v, dataOf cfg a) :: s) ∧
    processItem cfg (runItems cfg mid ((v, dataOf cfg a) :: s)).2 b =
      (Outcome.duplicated, (runItems cfg mid ((v, dataOf cfg a) :: s)).2) ∧
    storeGet (runItems cfg mid ((v, dataOf cfg a) :: s)).2 v =
      some (dataOf cfg a) := by
  have h1 := processItem_of_pkOf_some cfg a v ha s
  rw [hs] at h1
  have h2 : storeGet ((v, dataOf cfg a) :: s) v = some (dataOf cfg a) := by
    simp [storeGet]
  have h3 := storeGet_runItems cfg mid ((v, dataOf cfg a) :: s) v (dataOf cfg a) h2
  have h4 := processItem_of_pkOf_some cfg b v hb
    (runItems cfg mid ((v, dataOf cfg a) :: s)).2
  rw [h3] at h4
  exact ⟨h1, h4, h3⟩

/-- Witness for C10: two records with key 1 and different names — the
second is a duplicate and the stored row keeps the first record's name. -/
theorem first_occurrence_wins_witness :
    processItem cfgEx [] itemEx1 =
      (Outcome.inserted, (Value.int 1, dataOf cfgEx itemEx1) :: []) ∧
    processItem cfgEx (runItems cfgEx [] ((Value.int 1, dataOf cfgEx itemEx1) :: [])).2 itemEx1b =
      (Outcome.duplicated, (runItems cfgEx [] ((Value.int 1, dataOf cfgEx itemEx1) :: [])).2) ∧
    storeGet (runItems cfgEx [] ((Value.int 1, dataOf cfgEx itemEx1) :: [])).2 (Value.int 1) =
      some (dataOf cfgEx itemEx1) :=
  first_occurrence_wins cfgEx [] itemEx1 itemEx1b [] (Value.int 1)
    (by decide) (by decide) rfl

/-! ### Claim theorems: re-import -/

/-- Second-run invariant: if every key the first run (from `s`) ends up
holding is already present in `t`, then the run from `t` inserts nothing,
turns every first-run insert or duplicate into a duplicate, repeats every
error, and leaves `t` untouched. -/
theorem second_run_aux (cfg : ImportCfg) :
    ∀ (l : List Item) (s t : Store),
      (∀ v, (storeGet (runItems cfg l s).2 v).isSome = true →
        (storeGet t v).isSome = true) →
      (runItems cfg l t).1.inserted = 0 ∧
      (runItems cfg l t).1.duplicated =
        (runItems cfg l s).1.inserted + (runItems cfg l s).1.duplicated ∧
      (runItems cfg l t).1.errored = (runItems cfg l s).1.errored ∧
      (runItems cfg l t).2 = t := by
  intro l
  induction l with
  | nil =>
    intro s t hsub
    simp [runItems_nil]
  | cons it rest ih =>
    intro s t hsub
    cases hpk : pkOf cfg it with
    | none =>
      obtain ⟨⟨ks, hks⟩, hss⟩ := processItem_of_pkOf_none cfg it s hpk
      obtain ⟨⟨kt, hkt⟩, hst⟩ := processItem_of_pkOf_none cfg it t hpk
      have hsub' : ∀ v, (storeGet (runItems cfg rest s).2 v).isSome = true →
          (storeGet t v).isSome = true := by
        intro v hv
        apply hsub v
        rw [runItems_cons, hss]
        exact hv
      obtain ⟨i0, hdup, herr, hstore⟩ := ih s t hsub'
      rw [runItems_cons, runItems_cons, hss, hst, hks, hkt]
      refine ⟨?_, ?_, ?_, ?_⟩ <;> simp [Counts.bump, i0, hdup, herr, hstore]
    | some v =>
      have hchar_s := processItem_of_pkOf_some cfg it v hpk s
      have hchar_t := processItem_of_pkOf_some cfg it v hpk t
      cases hg : storeGet s v with
      | some r =>
        rw [hg] at hchar_s
        have hvt : (storeGet t v).isSome = true := by
          apply hsub v
          rw [runItems_cons, hchar_s]
          exact storeGet_isSome_runItems cfg rest s v (by simp [hg])
        obtain ⟨rt, hrt⟩ := Option.isSome_iff_exists.mp hvt
        rw [hrt] at hchar_t
        have hsub' : ∀ w, (storeGet (runItems cfg rest s).2 w).isSome = true →
            (storeGet t w).isSome = true := by
          intro w hw
          apply hsub w
          rw [runItems_cons, hchar_s]
          exact hw
        obtain ⟨i0, hdup, herr, hstore⟩ := ih s t hsub'
        rw [runItems_cons, runItems_cons, hchar_s, hchar_t]
        refine ⟨?_, ?_, ?_, ?_⟩ <;> simp [Counts.bump, i0, hdup, herr, hstore]
        omega
      | none =>
        rw [hg] at hchar_s
        have hvt : (storeGet t v).isSome = true := by
          apply hsub v
          rw [runItems_cons, hchar_s]
          exact storeGet_isSome_runItems cfg rest ((v, dataOf cfg it) :: s) v
            (by simp [storeGet])
        obtain ⟨rt, hrt⟩ := Option.isSome_iff_exists.mp hvt
        rw [hrt] at hchar_t
        have hsub' : ∀ w,
            (storeGet (runItems cfg rest ((v, dataOf cfg it) :: s)).2 w).isSome = true →
            (storeGet t w).isSome = true := by
          intro w hw
          apply hsub w
          rw [runItems_cons, hchar_s]
          exact hw
        obtain ⟨i0, hdup, herr, hstore⟩ := ih ((v, dataOf cfg it) :: s) t hsub'
        rw [runItems_cons, runItems_cons, hchar_s, hchar_t]
        refine ⟨?_, ?_, ?_, ?_⟩ <;> simp [Counts.bump, i0, hdup, herr, hstore]
        omega

/-- C1 counterexample: against a consistent store that already holds the
record's key, the first run inserts 0 and skips 1 duplicate, and the second
run's duplicate count is 1 — not equal to the first run's insert count. -/
theorem reimport_claim_cx :
    (runItems cfgEx [itemEx1] (runItems cfgEx [itemEx1] storeEx).2).1.duplicated ≠
      (runItems cfgEx [itemEx1] storeEx).1.inserted := by
  decide

/-- C1 (amended): running the same records twice from any store yields zero
inserts on the second run; the second run's duplicate count equals the
first run's inserted count plus the first run's duplicate count (every
record the first run committed or skipped is found by the key lookup and
skipped), and the error count is unchanged. -/
theorem reimport_second_run (cfg : ImportCfg) (items : List Item) (s : Store) :
    (runItems cfg items (runItems cfg items s).2).1.inserted = 0 ∧
    (runItems cfg items (runItems cfg items s).2).1.duplicated =
      (runItems cfg items s).1.inserted + (runItems cfg items s).1.duplicated ∧
    (runItems cfg items (runItems cfg items s).2).1.errored =
      (runItems cfg items s).1.errored := by
  obtain ⟨h1, h2, h3, _⟩ :=
    second_run_aux cfg items s (runItems cfg items s).2 (fun v hv => hv)
  exact ⟨h1, h2, h3⟩
